import Mathlib

/-!
Shallow embedding of the reconciliation and catalog-consistency core of the
VideoFilesLister repository (src/FileLister1db.py, src/db/schema.py,
src/scanner/scanner.py), together with theorems settling the frozen claims
about its specification.

The catalog is the SQLite `Files` table declared by `FILES_TABLE_SQL`:
columns (id, file_name, extension, size_bytes, storage_id, full_path,
creation_date, year, category, added_on, file_hash) with a UNIQUE constraint
on (file_name, size_bytes).  Rows are modelled as a list in insertion order
(SQLite rowid order, which is what unordered SELECTs iterate); the
AUTOINCREMENT id counter is modelled by `nextId`.
-/

namespace VideoLister

/-- A row of the `Files` table (schema in src/db/schema.py and the identical
copy at src/FileLister1db.py lines 86-106).  `creationDate`, `year`,
`category`, `addedOn` and `fileHash` are nullable columns. -/
structure Row where
  id : Nat
  fileName : String
  extension : String
  sizeBytes : Nat
  storageId : String
  fullPath : String
  creationDate : Option String
  year : Option Nat
  category : Option String
  addedOn : Option String
  fileHash : Option String
deriving Repr, DecidableEq

/-- The eight values bound by the shared `INSERT INTO Files (file_name,
extension, size_bytes, storage_id, creation_date, full_path, year, category)`
statement used by apply_action, force_insert_selected_files and
export_to_sqlite. -/
structure NewRow where
  fileName : String
  extension : String
  sizeBytes : Nat
  storageId : String
  creationDate : String
  fullPath : String
  year : Option Nat
  category : Option String
deriving Repr, DecidableEq

/-- A scan descriptor: the dict built by `process_file` in
src/scanner/scanner.py (and the identical `get_files_info` method of the
app): name_without_ext, full_path, extension (already lowercased by the
scanner), size, creation_date (already a formatted string), year, category,
tracked. -/
structure Desc where
  nameWithoutExt : String
  fullPath : String
  extension : String
  size : Nat
  creationDate : String
  year : Option Nat
  category : Option String
  tracked : Bool
deriving Repr, DecidableEq

/-- The catalog: the `Files` table contents in rowid order plus the
AUTOINCREMENT counter for the next surrogate id. -/
structure Catalog where
  rows : List Row
  nextId : Nat
deriving Repr, DecidableEq

/-- self.allowed_video_exts from FileLister1db.py (the set actually used by
scanning and by the export filter). -/
def allowedVideoExts : List String :=
  [".mp4", ".mkv", ".avi", ".mov", ".mpg", ".mpeg",
   ".wmv", ".flv", ".webm", ".m4v", ".3gp", ".ts", ".divx"]

/-- Per-character model of Python str.lower on the ASCII strings handled
here. -/
def lowerStr (s : String) : String :=
  String.mk (s.toList.map Char.toLower)

/-- os.path.normcase on Windows (the platform this program targets:
os.startfile, ctypes.windll): forward slashes become backslashes and letters
are lowercased.  Modelled per character. -/
def normChar (c : Char) : Char :=
  if c = '/' then '\\' else c.toLower

/-- Windows os.path.normcase, used by the unmatched-files classifier for the
moved-versus-in-sync path comparison. -/
def normcase (s : String) : String :=
  String.mk (s.toList.map normChar)

/-- self.format_date: on the strings produced by the scanner (strftime
output) it is the identity (the `isinstance(d, str)` branch). -/
def formatDate (d : String) : String := d

/-- Python substring membership `needle in hay`, used by apply_action's
blocked check (`"Duplicate video on another storage" in r`). -/
def hasSub (needle : List Char) : List Char → Bool
  | [] => needle.isEmpty
  | c :: rest => needle.isPrefixOf (c :: rest) || hasSub needle rest

/-- SELECT ... FROM Files WHERE file_name=? AND size_bytes=? / fetchone():
the first row in rowid order whose identity key matches. -/
def findByIdentity (db : Catalog) (name : String) (size : Nat) : Option Row :=
  db.rows.find? (fun r => r.fileName == name && r.sizeBytes == size)

/-- SELECT 1 FROM Files WHERE file_name=? / fetchone() as a Boolean. -/
def existsName (db : Catalog) (name : String) : Bool :=
  db.rows.any (fun r => r.fileName == name)

/-- The row materialized by the shared INSERT statement: the store assigns
the id and the added_on DEFAULT CURRENT_TIMESTAMP (passed in as `now`);
file_hash is never bound so it stays NULL. -/
def mkRow (id : Nat) (nr : NewRow) (now : String) : Row :=
  { id := id
    fileName := nr.fileName
    extension := nr.extension
    sizeBytes := nr.sizeBytes
    storageId := nr.storageId
    fullPath := nr.fullPath
    creationDate := some nr.creationDate
    year := nr.year
    category := nr.category
    addedOn := some now
    fileHash := none }

/-- Append the inserted row and advance the id counter (the success path of
the INSERT). -/
def insertAppend (db : Catalog) (nr : NewRow) (now : String) : Catalog :=
  { rows := db.rows ++ [mkRow db.nextId nr now], nextId := db.nextId + 1 }

/-- INSERT INTO Files under the UNIQUE(file_name, size_bytes) constraint:
sqlite raises IntegrityError exactly when a row with the same identity key
already exists, otherwise the row is appended. -/
def insertRow (db : Catalog) (nr : NewRow) (now : String) :
    Except Unit Catalog :=
  if db.rows.any (fun r => r.fileName == nr.fileName &&
      r.sizeBytes == nr.sizeBytes) then
    .error ()
  else
    .ok (insertAppend db nr now)

/-- UPDATE Files SET storage_id=?, full_path=?, creation_date=? WHERE id=?
(the "moved" update shared by apply_action, force_insert_selected_files and
export_to_sqlite). -/
def movedF (rid : Nat) (sid path cdate : String) (r : Row) : Row :=
  if r.id == rid then
    { r with storageId := sid, fullPath := path, creationDate := some cdate }
  else r

/-- The catalog after the "moved" UPDATE. -/
def updateMoved (db : Catalog) (rid : Nat) (sid path cdate : String) :
    Catalog :=
  { db with rows := db.rows.map (movedF rid sid path cdate) }

/-- The five outcome classes of show_unmatched_scanned_files (lines 362-398):
the four reason strings plus the `continue`d perfectly-in-sync case. -/
inductive FileClass where
  | newFile : FileClass
  | nameMatchSizeMismatch : FileClass
  | moved : Nat → FileClass
  | inSync : FileClass
  | duplicateElsewhere : Nat → FileClass
deriving Repr, DecidableEq

/-- The classification of one scan descriptor against the catalog under the
chosen storage id, following show_unmatched_scanned_files lines 365-398:
exact identity lookup first; on a hit, same storage id compares normcased
paths (moved vs in sync) and a different storage id is a duplicate
elsewhere; on a miss, a bare name hit is a name-match/size-mismatch and
otherwise the file is new. -/
def classifyFile (db : Catalog) (sid : String) (f : Desc) : FileClass :=
  match findByIdentity db f.nameWithoutExt f.size with
  | some r =>
    if r.storageId == sid then
      if normcase r.fullPath == normcase f.fullPath then .inSync
      else .moved r.id
    else .duplicateElsewhere r.id
  | none =>
    if existsName db f.nameWithoutExt then .nameMatchSizeMismatch
    else .newFile

/-- The reason strings attached to unmatched rows by
show_unmatched_scanned_files. -/
def reasonMoved : String := "Movie moved (update path/storage)"

/-- Reason string for cross-storage duplicates. -/
def reasonDup : String := "Duplicate video on another storage (waste)"

/-- Reason string for a name hit with a different size. -/
def reasonNMSM : String := "Name match, size mismatch"

/-- Reason string for a brand new file. -/
def reasonNew : String := "Not present in database"

/-- The substring apply_action scans every selected reason for. -/
def dupMarker : String := "Duplicate video on another storage"

/-- The constant error text shown when the batch is refused. -/
def blockedMsg : String :=
  "Some selected files already exist on another storage.\n\nThis represents duplicate storage waste and is NOT allowed."

/-- One selected row of the unmatched window: the descriptor, its reason
string and the optional existing row id, exactly the row_file_map triple. -/
structure Item where
  desc : Desc
  reason : String
  dbId : Option Nat
deriving Repr, DecidableEq

/-- The NewRow bound by apply_action's INSERT for a selected descriptor. -/
def newRowOfDesc (f : Desc) (sid : String) : NewRow :=
  { fileName := f.nameWithoutExt
    extension := f.extension
    sizeBytes := f.size
    storageId := sid
    creationDate := formatDate f.creationDate
    fullPath := f.fullPath
    year := f.year
    category := f.category }

/-- The loop body of apply_action (lines 514-546) threaded through Except:
moved reasons run the UPDATE (WHERE id=NULL matches nothing but still bumps
the counter), insert reasons run the INSERT whose IntegrityError escapes the
loop, any other reason string falls through. -/
def applyItems (sid now : String) :
    Catalog → Nat → Nat → List Item → Except Unit (Catalog × Nat × Nat)
  | db, ins, upd, [] => .ok (db, ins, upd)
  | db, ins, upd, it :: rest =>
    if it.reason == reasonMoved then
      match it.dbId with
      | some rid =>
        applyItems sid now
          (updateMoved db rid sid it.desc.fullPath
            (formatDate it.desc.creationDate)) ins (upd + 1) rest
      | none => applyItems sid now db ins (upd + 1) rest
    else if it.reason == reasonNew || it.reason == reasonNMSM then
      match insertRow db (newRowOfDesc it.desc sid) now with
      | .ok db2 => applyItems sid now db2 (ins + 1) upd rest
      | .error e => .error e
    else
      applyItems sid now db ins upd rest

/-- The outcome of one Apply Action press: the hard policy block (with its
constant message), the exception path (messagebox + return before commit, so
nothing is persisted), or completion with the reported counts. -/
inductive ApplyOutcome where
  | blocked : String → ApplyOutcome
  | dbError : ApplyOutcome
  | completed : Nat → Nat → ApplyOutcome
deriving Repr, DecidableEq

/-- apply_action (lines 490-563): first the hard block if any selected
reason contains the duplicate marker (before any database work), then the
row loop with a single commit at the end; an exception rolls everything
back, returning the catalog unchanged. -/
def applyAction (db : Catalog) (sel : List Item) (sid now : String) :
    ApplyOutcome × Catalog :=
  if sel.any (fun it => hasSub dupMarker.toList it.reason.toList) then
    (.blocked blockedMsg, db)
  else
    match applyItems sid now db 0 0 sel with
    | .error _ => (.dbError, db)
    | .ok (db2, ins, upd) => (.completed ins upd, db2)

/-- The running state of export_to_sqlite: the catalog plus the three
reported counters (new movies added, moved movies updated, duplicate waste
detected). -/
structure ExportResult where
  db : Catalog
  newCount : Nat
  movedCount : Nat
  wasteCount : Nat
deriving Repr, DecidableEq

/-- One iteration of the export_to_sqlite loop (lines 1504-1548): skip
extensions outside the allowed set, insert brand new identities (the INSERT
cannot violate the constraint here, since the guarding SELECT just found no
identity match), update moved files on the same storage when the stored path
differs (an exact, case-sensitive comparison in this code path), and only
count cross-storage duplicates. -/
def exportStep (sid now : String) (acc : ExportResult) (f : Desc) :
    ExportResult :=
  if allowedVideoExts.contains (lowerStr f.extension) then
    match findByIdentity acc.db f.nameWithoutExt f.size with
    | none =>
      { acc with
        db := insertAppend acc.db (newRowOfDesc f sid) now
        newCount := acc.newCount + 1 }
    | some r =>
      if r.storageId == sid then
        if r.fullPath == f.fullPath then acc
        else
          { acc with
            db := updateMoved acc.db r.id sid f.fullPath
              (formatDate f.creationDate)
            movedCount := acc.movedCount + 1 }
      else
        { acc with wasteCount := acc.wasteCount + 1 }
  else acc

/-- export_to_sqlite's reconcile-and-apply over the whole scan. -/
def exportScan (db : Catalog) (sid : String) (scan : List Desc)
    (now : String) : ExportResult :=
  scan.foldl (exportStep sid now) ⟨db, 0, 0, 0⟩

/-- The per-row map of update_storage_id_from_scan's UPDATE (lines
1429-1439): assign the new storage id only where the identity matches the
scanned file and the current storage id is exactly the UNKNOWN sentinel. -/
def storageScanF (sid : String) (f : Desc) (r : Row) : Row :=
  if r.fileName == f.nameWithoutExt && r.sizeBytes == f.size &&
      r.storageId == "UNKNOWN" then
    { r with storageId := sid }
  else r

/-- One scanned file's UPDATE together with its cur.rowcount. -/
def storageScanStep (sid : String) (acc : Catalog × Nat) (f : Desc) :
    Catalog × Nat :=
  if f.tracked then
    ({ acc.1 with rows := acc.1.rows.map (storageScanF sid f) },
     acc.2 + (acc.1.rows.countP (fun r =>
       r.fileName == f.nameWithoutExt && r.sizeBytes == f.size &&
       r.storageId == "UNKNOWN")))
  else acc

/-- update_storage_id_from_scan (lines 1401-1458): refuse the UNKNOWN
sentinel as a new value, otherwise run the guarded UPDATE once per tracked
scanned file and report the total row count. -/
def updateStorageFromScan (db : Catalog) (sid : String) (scan : List Desc) :
    Catalog × Nat :=
  if sid == "UNKNOWN" then (db, 0)
  else scan.foldl (storageScanStep sid) (db, 0)

/-- One file of the disk walk in verify_db_vs_disk: splitext base and
(lowercased) extension, size and full path.  Only allowed extensions enter
the disk index, mirrored by the `ext` field below being the lowercased
splitext result. -/
structure DiskFile where
  base : String
  ext : String
  size : Nat
  path : String
deriving Repr, DecidableEq

/-- One line of the verify report: (id-or-dash, file, size, path, problem
text). -/
structure Problem where
  rid : Option Nat
  name : String
  size : Nat
  path : String
  note : String
deriving Repr, DecidableEq

/-- Whether the disk index contains the (lowercased name, size) key of a
catalog row. -/
def diskHasKey (disk : List DiskFile) (r : Row) : Bool :=
  disk.any (fun d => d.ext ∈ allowedVideoExts &&
    lowerStr d.base == lowerStr r.fileName && d.size == r.sizeBytes)

/-- Whether the catalog rows restricted to the storage contain the disk
key. -/
def dbHasKey (rows : List Row) (d : DiskFile) : Bool :=
  rows.any (fun r => lowerStr r.fileName == lowerStr d.base &&
    r.sizeBytes == d.size)

/-- verify_db_vs_disk (lines 1773-1856): purely a report.  The catalog rows
for the chosen storage id are checked against the disk index (missing on
disk), then the disk index is checked against those rows (exists on disk but
missing in DB).  The function only ever SELECTs, so it hands the catalog
back untouched next to the problem list. -/
def verifyDbVsDisk (db : Catalog) (sid : String) (disk : List DiskFile) :
    List Problem × Catalog :=
  let rows := db.rows.filter (fun r => r.storageId == sid)
  let missing := (rows.filter (fun r => !(diskHasKey disk r))).map
    (fun r => Problem.mk (some r.id) r.fileName r.sizeBytes r.fullPath
      "Missing on disk")
  let extra := ((disk.filter (fun d => d.ext ∈ allowedVideoExts &&
      !(dbHasKey rows d))).map
    (fun d => Problem.mk none (lowerStr d.base) d.size d.path
      "Exists on disk but missing in DB"))
  (missing ++ extra, db)

/-- The 19xx/20xx test of re.findall(r'(19\d\x7b2\x7d|20\d\x7b2\x7d)', s) at
one start position: the value of the four-digit token beginning here, if
any. -/
def yearAt : List Char → Option Nat
  | a :: b :: c :: d :: _ =>
    if a = '1' ∧ b = '9' ∧ c.isDigit ∧ d.isDigit then
      some (1900 + (c.toNat - 48) * 10 + (d.toNat - 48))
    else if a = '2' ∧ b = '0' ∧ c.isDigit ∧ d.isDigit then
      some (2000 + (c.toNat - 48) * 10 + (d.toNat - 48))
    else none
  | _ => none

/-- The leftmost match of the year pattern, as the regex scan finds it. -/
def firstYear : List Char → Option Nat
  | [] => none
  | c :: rest =>
    match yearAt (c :: rest) with
    | some y => some y
    | none => firstYear rest

/-- extract_year_from_filename (lines 185-191, and the identical inline copy
in the scanner): take the first 19xx/20xx token and re-check the 1900..2099
range before returning it. -/
def extract_year_from_filename (filename : String) : Option Nat :=
  match firstYear filename.toList with
  | some y => if 1900 ≤ y && y ≤ 2099 then some y else none
  | none => none

/-- Generic Boolean pairwise predicate over the row list. -/
def pairwiseB (p : Row → Row → Bool) : List Row → Bool
  | [] => true
  | r :: rest => rest.all (p r) && pairwiseB p rest

/-- Two rows clash when they share the (file_name, size_bytes) identity
key. -/
def identClash (a b : Row) : Bool :=
  a.fileName == b.fileName && a.sizeBytes == b.sizeBytes

/-- The schema invariant UNIQUE(file_name, size_bytes): no two rows share
the identity key. -/
def uniqueIdent (db : Catalog) : Bool :=
  pairwiseB (fun a b => !(identClash a b)) db.rows

/-- Well-formedness of the surrogate keys: ids are pairwise distinct and
below the AUTOINCREMENT counter (always true of a real sqlite table). -/
def wfIds (db : Catalog) : Bool :=
  pairwiseB (fun a b => a.id != b.id) db.rows &&
  db.rows.all (fun r => r.id < db.nextId)

/-- A catalog as sqlite maintains it: unique identities and well-formed
ids. -/
def wf (db : Catalog) : Bool :=
  uniqueIdent db && wfIds db

/-- Pairwise distinct identity keys over a scan result. -/
def scanDistinct : List Desc → Bool
  | [] => true
  | f :: rest =>
    rest.all (fun g => !(g.nameWithoutExt == f.nameWithoutExt &&
      g.size == f.size)) && scanDistinct rest

/-- Per-row map of UPDATE Files SET year=? WHERE id=?. -/
def yearF (rid : Nat) (y : Option Nat) (r : Row) : Row :=
  if r.id == rid then { r with year := y } else r

/-- UPDATE Files SET year=? WHERE id=? (the year cell editor). -/
def updateYear (db : Catalog) (rid : Nat) (y : Option Nat) : Catalog :=
  { db with rows := db.rows.map (yearF rid y) }

/-- Per-row map of UPDATE Files SET category=? WHERE id=?. -/
def categoryF (rid : Nat) (c : Option String) (r : Row) : Row :=
  if r.id == rid then { r with category := c } else r

/-- UPDATE Files SET category=? WHERE id=? (cell editor and bulk category
editor). -/
def updateCategory (db : Catalog) (rid : Nat) (c : Option String) :
    Catalog :=
  { db with rows := db.rows.map (categoryF rid c) }

/-- Per-row map of UPDATE Files SET full_path=? WHERE id=?. -/
def pathF (rid : Nat) (p : String) (r : Row) : Row :=
  if r.id == rid then { r with fullPath := p } else r

/-- UPDATE Files SET full_path=? WHERE id=? (fix_by_filename and the manual
path editor). -/
def updatePath (db : Catalog) (rid : Nat) (p : String) : Catalog :=
  { db with rows := db.rows.map (pathF rid p) }

/-- DELETE FROM Files WHERE id=?. -/
def deleteRow (db : Catalog) (rid : Nat) : Catalog :=
  { db with rows := db.rows.filter (fun r => r.id != rid) }

/-- DELETE FROM Files (Delete ALL). -/
def deleteAll (db : Catalog) : Catalog :=
  { db with rows := [] }

/-- Every write the program ever issues against the Files table, one
constructor per UPDATE/INSERT/DELETE shape found in the source. -/
inductive DbOp where
  | ins : NewRow → String → DbOp
  | updMoved : Nat → String → String → String → DbOp
  | updStorageScan : String → List Desc → DbOp
  | updYear : Nat → Option Nat → DbOp
  | updCategory : Nat → Option String → DbOp
  | updPath : Nat → String → DbOp
  | delOne : Nat → DbOp
  | delAll : DbOp
deriving Repr, DecidableEq

/-- Execute one write; a constraint-violating insert raises and leaves the
table unchanged. -/
def applyOp (db : Catalog) : DbOp → Catalog
  | .ins nr now =>
    match insertRow db nr now with
    | .ok db2 => db2
    | .error _ => db
  | .updMoved rid sid path cdate => updateMoved db rid sid path cdate
  | .updStorageScan sid scan => (updateStorageFromScan db sid scan).1
  | .updYear rid y => updateYear db rid y
  | .updCategory rid c => updateCategory db rid c
  | .updPath rid p => updatePath db rid p
  | .delOne rid => deleteRow db rid
  | .delAll => deleteAll db

/-- A whole session of writes. -/
def applyOps (db : Catalog) (ops : List DbOp) : Catalog :=
  ops.foldl applyOp db

/-- Concrete catalog row used by the concrete instances below. -/
def rowClip : Row :=
  ⟨1, "clip", ".mp4", 1000, "A", "/old/clip.mp4", some "2020-01-01 00:00:00",
   none, none, some "2021-01-01 00:00:00", none⟩

/-- A one-row catalog holding `rowClip`. -/
def dbClip : Catalog := ⟨[rowClip], 2⟩

/-- Scan descriptor with `rowClip`'s identity at a new path. -/
def descMovedClip : Desc :=
  ⟨"clip", "/new/clip.mp4", ".mp4", 1000, "2020-01-01 00:00:00", none, none,
   true⟩

/-- Scan descriptor whose path differs from `rowClip`'s only in letter
case. -/
def descCaseClip : Desc :=
  ⟨"clip", "/OLD/CLIP.mp4", ".mp4", 1000, "2020-01-01 00:00:00", none, none,
   true⟩

/-- Offending duplicate selected in the blocked-batch instance: the same
identity as `rowClip`, scanned while the storage box says B. -/
def descOffender : Desc :=
  ⟨"clip", "/b/clip.mp4", ".mp4", 1000, "2020-02-02 00:00:00", none, none,
   true⟩

/-- A brand-new descriptor mixed into the blocked selection. -/
def descFresh : Desc :=
  ⟨"fresh", "/b/fresh.mkv", ".mkv", 200, "2020-02-02 00:00:00", some 2020,
   none, true⟩

/-- The blocked-batch selection: one cross-storage duplicate mixed with one
actionable new file. -/
def selBlocked : List Item :=
  [⟨descOffender, reasonDup, some 1⟩, ⟨descFresh, reasonNew, none⟩]

/-- First of two same-identity descriptors (true duplicates on one disk). -/
def descPair1 : Desc :=
  ⟨"m", "/p1/m.mp4", ".mp4", 7, "2020-03-03 00:00:00", none, none, true⟩

/-- Second of the two same-identity descriptors, at another path. -/
def descPair2 : Desc :=
  ⟨"m", "/p2/m.mp4", ".mp4", 7, "2020-03-03 00:00:00", none, none, true⟩

/-- The empty catalog with the id counter at 1. -/
def dbEmpty : Catalog := ⟨[], 1⟩

/-- Selection of the two same-identity descriptors, both classified as new:
the second INSERT violates the uniqueness constraint mid-batch. -/
def selTwoNew : List Item :=
  [⟨descPair1, reasonNew, none⟩, ⟨descPair2, reasonNew, none⟩]

/-- A catalog row still carrying the UNKNOWN storage sentinel. -/
def rowUnknown : Row :=
  ⟨1, "m", ".mp4", 7, "UNKNOWN", "/p1/m.mp4", some "2020-03-03 00:00:00",
   none, none, some "2021-01-01 00:00:00", none⟩

/-- A catalog row already assigned to storage B. -/
def rowAssigned : Row :=
  ⟨2, "m2", ".mp4", 8, "B", "/q/m2.mp4", some "2020-03-03 00:00:00", none,
   none, some "2021-01-01 00:00:00", none⟩

/-- Two-row catalog mixing an UNKNOWN row and an assigned row. -/
def dbStorageMix : Catalog := ⟨[rowUnknown, rowAssigned], 3⟩

/-- The row-level contract of the bulk storage-id reassignment: an already
assigned row is untouched, and a row changes at most by receiving the new
storage id, which happens only when it carried the UNKNOWN sentinel and some
tracked scanned file matches its identity key. -/
def c10Rel (sid : String) (scan : List Desc) (r r2 : Row) : Prop :=
  (r.storageId ≠ "UNKNOWN" → r2 = r) ∧
  (r2 = r ∨ (r.storageId = "UNKNOWN" ∧ r2 = { r with storageId := sid } ∧
    ∃ f ∈ scan, f.tracked = true ∧ f.nameWithoutExt = r.fileName ∧
      f.size = r.sizeBytes))

/-- The state export_to_sqlite leaves a descriptor in when its apply
succeeded for storage `sid`: the identity lookup finds a row on that storage
whose stored path is exactly the scanned path. -/
def goodFor (sid : String) (db : Catalog) (f : Desc) : Prop :=
  ∃ r, findByIdentity db f.nameWithoutExt f.size = some r ∧
    r.storageId = sid ∧ r.fullPath = f.fullPath

/-- A digit character's code point lies in the decimal range. -/
theorem isDigit_bounds (c : Char) (h : c.isDigit = true) :
    48 ≤ c.toNat ∧ c.toNat ≤ 57 := by
  simp [Char.isDigit, Char.le_def, decide_eq_true_eq] at h
  exact h

/-- Any position match of the year pattern yields a value in 1900..2099. -/
theorem yearAt_range (l : List Char) (y : Nat) (h : yearAt l = some y) :
    1900 ≤ y ∧ y ≤ 2099 := by
  match l with
  | [] => simp [yearAt] at h
  | [a] => simp [yearAt] at h
  | [a, b] => simp [yearAt] at h
  | [a, b, c] => simp [yearAt] at h
  | a :: b :: c :: d :: t =>
    simp only [yearAt] at h
    split_ifs at h with h1 h2
    · obtain ⟨_, _, hc, hd⟩ := h1
      obtain ⟨hc1, hc2⟩ := isDigit_bounds c hc
      obtain ⟨hd1, hd2⟩ := isDigit_bounds d hd
      cases h
      omega
    · obtain ⟨_, _, hc, hd⟩ := h2
      obtain ⟨hc1, hc2⟩ := isDigit_bounds c hc
      obtain ⟨hd1, hd2⟩ := isDigit_bounds d hd
      cases h
      omega

/-- firstYear returns the leftmost position match of the year pattern, and
returns nothing exactly when no position matches. -/
theorem firstYear_spec (l : List Char) :
    (∀ y, firstYear l = some y →
      ∃ i, yearAt (l.drop i) = some y ∧
        ∀ j, j < i → yearAt (l.drop j) = none) ∧
    (firstYear l = none → ∀ i, yearAt (l.drop i) = none) := by
  induction l with
  | nil =>
    constructor
    · intro y hy
      simp [firstYear] at hy
    · intro _ i
      simp [yearAt]
  | cons c rest ih =>
    rcases h0 : yearAt (c :: rest) with _ | y0
    · constructor
      · intro y hy
        rw [firstYear, h0] at hy
        obtain ⟨i, hi, hlt⟩ := ih.1 y hy
        refine ⟨i + 1, ?_, ?_⟩
        · simpa using hi
        · intro j hj
          match j with
          | 0 => simpa using h0
          | j' + 1 =>
            have := hlt j' (by omega)
            simpa using this
      · intro hn i
        rw [firstYear, h0] at hn
        match i with
        | 0 => simpa using h0
        | i' + 1 =>
          have := ih.2 hn i'
          simpa using this
    · constructor
      · intro y hy
        rw [firstYear, h0] at hy
        cases hy
        exact ⟨0, by simpa using h0, by omega⟩
      · intro hn
        rw [firstYear, h0] at hn
        cases hn

/-- Claim C9: year extraction is a pure function from the filename string to
an optional year; it yields the value of the first (leftmost) 19xx/20xx
four-digit token of the string, hence always a value between 1900 and 2099,
and yields nothing exactly when no position of the string matches the
pattern.  Purity holds by construction: extract_year_from_filename is a
function of the string alone. -/
theorem extract_year_first_token_c9 (s : String) :
    (∀ y, extract_year_from_filename s = some y →
      (1900 ≤ y ∧ y ≤ 2099) ∧
      ∃ i, yearAt (s.toList.drop i) = some y ∧
        ∀ j, j < i → yearAt (s.toList.drop j) = none) ∧
    (extract_year_from_filename s = none →
      ∀ i, yearAt (s.toList.drop i) = none) := by
  constructor
  · intro y hy
    unfold extract_year_from_filename at hy
    rcases hf : firstYear s.toList with _ | y0
    · rw [hf] at hy
      cases hy
    · rw [hf] at hy
      obtain ⟨i, hi, hmin⟩ := (firstYear_spec s.toList).1 y0 hf
      have hrange := yearAt_range _ _ hi
      have hcond : (1900 ≤ y0 && y0 ≤ 2099) = true := by
        simp only [Bool.and_eq_true, decide_eq_true_eq]
        exact hrange
      simp only [hcond, if_true] at hy
      cases hy
      exact ⟨hrange, i, hi, hmin⟩
  · intro hn i
    unfold extract_year_from_filename at hn
    rcases hf : firstYear s.toList with _ | y0
    · exact (firstYear_spec s.toList).2 hf i
    · rw [hf] at hn
      obtain ⟨j, hj, _⟩ := (firstYear_spec s.toList).1 y0 hf
      have hrange := yearAt_range _ _ hj
      have hcond : (1900 ≤ y0 && y0 ≤ 2099) = true := by
        simp only [Bool.and_eq_true, decide_eq_true_eq]
        exact hrange
      simp [hcond] at hn

/-- Claim C9 witness: on the concrete filename "Movie.2019.mkv" the
extractor returns 2019, which is in range and is the leftmost pattern
match. -/
theorem extract_year_first_token_c9_witness :
    (1900 ≤ 2019 ∧ 2019 ≤ 2099) ∧
    ∃ i, yearAt (("Movie.2019.mkv" : String).toList.drop i) = some 2019 ∧
      ∀ j, j < i →
        yearAt (("Movie.2019.mkv" : String).toList.drop j) = none :=
  (extract_year_first_token_c9 "Movie.2019.mkv").1 2019 (by decide)

/-- Claim C8: applying a Moved decision (the UPDATE Files SET storage_id=?,
full_path=?, creation_date=? WHERE id=?) updates exactly storageId, fullPath
and creationDate of the row with the given id; its id, fileName, extension,
sizeBytes, year, category, addedOn (and file_hash) are unchanged, and every
other catalog row is unchanged. -/
theorem update_moved_frame_c8 (db : Catalog) (rid : Nat)
    (sid path cdate : String) :
    List.Forall₂ (fun r r2 =>
      (r.id ≠ rid → r2 = r) ∧
      (r.id = rid → r2.id = r.id ∧ r2.fileName = r.fileName ∧
        r2.extension = r.extension ∧ r2.sizeBytes = r.sizeBytes ∧
        r2.year = r.year ∧ r2.category = r.category ∧
        r2.addedOn = r.addedOn ∧ r2.fileHash = r.fileHash ∧
        r2.storageId = sid ∧ r2.fullPath = path ∧
        r2.creationDate = some cdate))
      db.rows (updateMoved db rid sid path cdate).rows := by
  unfold updateMoved
  simp only [List.forall₂_map_right_iff]
  rw [List.forall₂_same]
  intro r _
  by_cases hid : r.id = rid
  · simp [movedF, hid]
  · simp [movedF, hid]

/-- Claim C8 witness: the frame property instantiated on the concrete
one-row catalog `dbClip` and a concrete moved update. -/
theorem update_moved_frame_c8_witness :
    List.Forall₂ (fun r r2 =>
      (r.id ≠ 1 → r2 = r) ∧
      (r.id = 1 → r2.id = r.id ∧ r2.fileName = r.fileName ∧
        r2.extension = r.extension ∧ r2.sizeBytes = r.sizeBytes ∧
        r2.year = r.year ∧ r2.category = r.category ∧
        r2.addedOn = r.addedOn ∧ r2.fileHash = r.fileHash ∧
        r2.storageId = "B" ∧ r2.fullPath = "/new/clip.mp4" ∧
        r2.creationDate = some "2020-05-05 00:00:00"))
      dbClip.rows
      (updateMoved dbClip 1 "B" "/new/clip.mp4"
        "2020-05-05 00:00:00").rows :=
  update_moved_frame_c8 dbClip 1 "B" "/new/clip.mp4" "2020-05-05 00:00:00"

/-- One guarded UPDATE of the storage-id reassignment preserves the
row-level contract: only identity-matching UNKNOWN rows are touched, and
only their storage id changes. -/
theorem c10Rel_step (sid : String) (scan : List Desc) (f : Desc)
    (hf : f ∈ scan) (htr : f.tracked = true)
    (hsid : sid ≠ "UNKNOWN")
    (r r2 : Row) (h : c10Rel sid scan r r2) :
    c10Rel sid scan r (storageScanF sid f r2) := by
  unfold storageScanF
  by_cases hc : (r2.fileName == f.nameWithoutExt && r2.sizeBytes == f.size &&
      r2.storageId == "UNKNOWN") = true
  · rw [if_pos hc]
    simp only [Bool.and_eq_true, beq_iff_eq] at hc
    obtain ⟨⟨hname, hsize⟩, hunk⟩ := hc
    obtain ⟨h1, h2⟩ := h
    rcases h2 with heq | ⟨hU, hset, _⟩
    · subst heq
      refine ⟨fun hne => absurd hunk hne,
        Or.inr ⟨hunk, rfl, f, hf, htr, hname.symm, hsize.symm⟩⟩
    · exfalso
      rw [hset] at hunk
      exact hsid hunk
  · rw [if_neg hc]
    exact h

/-- The whole per-scanned-file UPDATE loop preserves the row-level
contract. -/
theorem storageScan_fold_rel (sid : String) (bigScan : List Desc)
    (rows0 : List Row) (hsid : sid ≠ "UNKNOWN") :
    ∀ (scan : List Desc) (acc : Catalog × Nat),
      (∀ f ∈ scan, f ∈ bigScan) →
      List.Forall₂ (c10Rel sid bigScan) rows0 acc.1.rows →
      List.Forall₂ (c10Rel sid bigScan) rows0
        (List.foldl (storageScanStep sid) acc scan).1.rows := by
  intro scan
  induction scan with
  | nil =>
    intro acc _ h
    simpa using h
  | cons f rest ih =>
    intro acc hmem h
    rw [List.foldl_cons]
    apply ih _ (fun g hg => hmem g (List.mem_cons_of_mem f hg))
    unfold storageScanStep
    by_cases ht : f.tracked = true
    · simp only [ht, if_true]
      simp only [List.forall₂_map_right_iff]
      exact h.imp (fun a b hr =>
        c10Rel_step sid bigScan f (hmem f (List.mem_cons_self f rest)) ht
          hsid a b hr)
    · simp only [ht, if_false]
      exact h

/-- Claim C10: the bulk storage-id reassignment from a scan never overwrites
an assigned storage label: row by row, a catalog row with any storage id
other than UNKNOWN is returned completely unchanged, and a row changes (and
then only its storage_id field) only when its (file_name, size_bytes)
matches a tracked scanned file and its current storage_id is exactly
UNKNOWN. -/
theorem update_storage_frame_c10 (db : Catalog) (sid : String)
    (scan : List Desc) :
    List.Forall₂ (c10Rel sid scan) db.rows
      (updateStorageFromScan db sid scan).1.rows := by
  unfold updateStorageFromScan
  by_cases hsid : sid = "UNKNOWN"
  · simp only [hsid, beq_self_eq_true, if_true]
    rw [List.forall₂_same]
    intro r _
    exact ⟨fun _ => rfl, Or.inl rfl⟩
  · rw [if_neg (by simpa using hsid)]
    apply storageScan_fold_rel sid scan db.rows hsid scan (db, 0)
      (fun g hg => hg)
    rw [List.forall₂_same]
    intro r _
    exact ⟨fun _ => rfl, Or.inl rfl⟩

/-- Claim C10 witness: the contract instantiated on the concrete mixed
catalog (one UNKNOWN row, one row assigned to B) and a one-file scan
matching the UNKNOWN row. -/
theorem update_storage_frame_c10_witness :
    List.Forall₂ (c10Rel "A" [descPair1]) dbStorageMix.rows
      (updateStorageFromScan dbStorageMix "A" [descPair1]).1.rows :=
  update_storage_frame_c10 dbStorageMix "A" [descPair1]

/-- Claim C7: the verify-catalog-vs-disk pass is read-only and absence is
never destructive: it returns the catalog unchanged (in particular the row
count is identical), and a row recorded for the chosen storage whose
identity key is absent from that storage's disk index is reported as a
"Missing on disk" problem rather than deleted. -/
theorem verify_read_only_c7 (db : Catalog) (sid : String)
    (disk : List DiskFile) :
    (verifyDbVsDisk db sid disk).2 = db ∧
    (verifyDbVsDisk db sid disk).2.rows.length = db.rows.length ∧
    (∀ r ∈ db.rows, r.storageId = sid → diskHasKey disk r = false →
      Problem.mk (some r.id) r.fileName r.sizeBytes r.fullPath
        "Missing on disk" ∈ (verifyDbVsDisk db sid disk).1) := by
  refine ⟨rfl, rfl, ?_⟩
  intro r hr hsid hkey
  unfold verifyDbVsDisk
  simp only [List.mem_append, List.mem_map]
  left
  exact ⟨r, by simp [List.mem_filter, hr, hsid, hkey], rfl⟩

/-- Claim C7 witness: verifying the concrete catalog `dbClip` against an
empty disk reports its row as missing on disk (and, by the same theorem,
hands the catalog back unchanged). -/
theorem verify_read_only_c7_witness :
    Problem.mk (some rowClip.id) rowClip.fileName rowClip.sizeBytes
      rowClip.fullPath "Missing on disk" ∈
      (verifyDbVsDisk dbClip "A" []).1 :=
  (verify_read_only_c7 dbClip "A" []).2.2 rowClip (by decide) (by decide)
    (by decide)

/-- Claim C1 (amended): if the selection handed to the batch apply contains
a DuplicateElsewhere item mixed with other actionable items (and this apply
path has no override flag), the entire batch is refused before any database
work and no row is inserted or updated — but the response is the fixed
policy-error message; it does not name the individual blocking entries. -/
theorem apply_dup_blocks_batch_c1 (db : Catalog) (sel : List Item)
    (sid now : String)
    (hdup : ∃ it ∈ sel, hasSub dupMarker.toList it.reason.toList = true)
    (hmix : ∃ jt ∈ sel, jt.reason = reasonNew ∨ jt.reason = reasonNMSM ∨
      jt.reason = reasonMoved) :
    applyAction db sel sid now = (.blocked blockedMsg, db) := by
  unfold applyAction
  rw [if_pos]
  rw [List.any_eq_true]
  obtain ⟨it, hit, hsub⟩ := hdup
  exact ⟨it, hit, hsub⟩

/-- Claim C1 witness: the concrete mixed selection (one cross-storage
duplicate, one new file) is refused with the catalog unchanged. -/
theorem apply_dup_blocks_batch_c1_witness :
    applyAction dbClip selBlocked "B" "2022-01-01 00:00:00" =
      (.blocked blockedMsg, dbClip) :=
  apply_dup_blocks_batch_c1 dbClip selBlocked "B" "2022-01-01 00:00:00"
    ⟨⟨descOffender, reasonDup, some 1⟩, by decide, by decide⟩
    ⟨⟨descFresh, reasonNew, none⟩, by decide, Or.inl rfl⟩

/-- Claim C1 counterexample to the claim as stated: on the concrete mixed
selection the batch is refused and nothing is written, as claimed, but the
response does not name the offending (blocking) entries — no selected
entry's file name occurs anywhere in the fixed error message, so the
response cannot be naming the blockers. -/
theorem apply_blocked_no_names_c1_cx :
    applyAction dbClip selBlocked "B" "2022-01-01 00:00:00" =
      (.blocked blockedMsg, dbClip) ∧
    (∀ it ∈ selBlocked,
      hasSub it.desc.nameWithoutExt.toList blockedMsg.toList = false) := by
  constructor
  · decide
  · decide

/-- Claim C4 (amended): apply_action wraps the whole row loop in one
try/except with a single commit after it, so an insert that raises a
constraint violation (identity already present — here, a second selected
new-file item with the same identity as the first) aborts the entire batch:
the outcome is the database-error path and no insert or update is committed,
the catalog coming back unchanged.  The violation is not recovered as a
per-row skip. -/
theorem apply_cv_aborts_batch_c4 (db : Catalog) (i1 i2 : Item)
    (sid now : String)
    (h1 : i1.reason = reasonNew) (h2 : i2.reason = reasonNew)
    (hname : i2.desc.nameWithoutExt = i1.desc.nameWithoutExt)
    (hsize : i2.desc.size = i1.desc.size)
    (habs : findByIdentity db i1.desc.nameWithoutExt i1.desc.size = none) :
    applyAction db [i1, i2] sid now = (.dbError, db) := by
  have habs' : (db.rows.any fun r => r.fileName == i1.desc.nameWithoutExt &&
      r.sizeBytes == i1.desc.size) = false := by
    rw [List.any_eq_false]
    intro r hr
    have h := List.find?_eq_none.mp habs r hr
    simpa using h
  unfold applyAction
  rw [if_neg]
  swap
  · simp [h1, h2]
    decide
  simp only [applyItems, h1, h2]
  rw [if_neg (by decide)]
  rw [if_pos (by decide)]
  have hins1 : insertRow db (newRowOfDesc i1.desc sid) now =
      .ok (insertAppend db (newRowOfDesc i1.desc sid) now) := by
    unfold insertRow
    rw [if_neg]
    simp only [newRowOfDesc]
    rw [habs']
    simp
  rw [hins1]
  simp only [applyItems]
  rw [if_neg (by decide)]
  rw [if_pos (by decide)]
  have hins2 : insertRow (insertAppend db (newRowOfDesc i1.desc sid) now)
      (newRowOfDesc i2.desc sid) now = .error () := by
    unfold insertRow
    rw [if_pos]
    simp only [insertAppend, newRowOfDesc, List.any_append, List.any_cons,
      List.any_nil, mkRow]
    simp [hname, hsize]
  rw [hins2]

/-- Claim C4 witness: on the concrete catalog `dbClip`, selecting the two
same-identity new-file items aborts the whole batch with the catalog
unchanged. -/
theorem apply_cv_aborts_batch_c4_witness :
    applyAction dbClip
      [⟨descPair1, reasonNew, none⟩, ⟨descPair2, reasonNew, none⟩]
      "A" "2022-02-02 00:00:00" = (.dbError, dbClip) :=
  apply_cv_aborts_batch_c4 dbClip ⟨descPair1, reasonNew, none⟩
    ⟨descPair2, reasonNew, none⟩ "A" "2022-02-02 00:00:00" rfl rfl
    (by decide) (by decide) (by decide)

/-- Claim C4 counterexample to the claim as stated: starting from the empty
catalog, a batch of two new-file items sharing one identity ends in the
database-error outcome with the catalog unchanged — the first item is NOT
applied and the second is NOT counted as skipped, so a single row-level
constraint violation does abort the whole batch. -/
theorem apply_cv_aborts_batch_c4_cx :
    applyAction dbEmpty selTwoNew "A" "2022-01-01 00:00:00" =
      (.dbError, dbEmpty) ∧ dbEmpty.rows.length = 0 := by
  constructor
  · decide
  · decide

/-- Claim C5 (amended): in the unmatched-files reconciliation
(show_unmatched_scanned_files, the path behind Apply Action), when the
scanned descriptor's identity matches an existing entry on the same storage
id, the Moved-versus-InSync decision compares the stored and scanned paths
after os.path.normcase, so it is case-insensitive there: Moved is produced
exactly when the case-normalized paths differ, and InSync exactly when they
coincide.  The direct export-to-SQLite path, however, compares the raw
strings (see the counterexample), so the claim does not hold of that code
path. -/
theorem classify_moved_normcase_c5 (db : Catalog) (sid : String) (f : Desc)
    (r : Row)
    (hfind : findByIdentity db f.nameWithoutExt f.size = some r)
    (hsid : r.storageId = sid) :
    (classifyFile db sid f = .moved r.id ↔
      normcase r.fullPath ≠ normcase f.fullPath) ∧
    (classifyFile db sid f = .inSync ↔
      normcase r.fullPath = normcase f.fullPath) := by
  unfold classifyFile
  rw [hfind]
  simp only [hsid, beq_self_eq_true, if_true]
  by_cases hp : normcase r.fullPath = normcase f.fullPath
  · simp [hp]
  · simp [hp]

/-- Claim C5 witness: the amended equivalence instantiated on the concrete
catalog `dbClip` and the genuinely moved descriptor. -/
theorem classify_moved_normcase_c5_witness :
    (classifyFile dbClip "A" descMovedClip = .moved rowClip.id ↔
      normcase rowClip.fullPath ≠ normcase descMovedClip.fullPath) ∧
    (classifyFile dbClip "A" descMovedClip = .inSync ↔
      normcase rowClip.fullPath = normcase descMovedClip.fullPath) :=
  classify_moved_normcase_c5 dbClip "A" descMovedClip rowClip (by decide)
    rfl

/-- Claim C5 counterexample to the claim as stated: a scanned path that
differs from the stored path only in letter case (equal after normcase) is
nevertheless treated as Moved by export_to_sqlite — the update fires and
changes the catalog — because that code path compares the raw path
strings. -/
theorem export_case_path_c5_cx :
    normcase rowClip.fullPath = normcase descCaseClip.fullPath ∧
    (exportScan dbClip "A" [descCaseClip]
      "2022-01-01 00:00:00").movedCount = 1 ∧
    (exportScan dbClip "A" [descCaseClip] "2022-01-01 00:00:00").db ≠
      dbClip := by
  refine ⟨by decide, by decide, by decide⟩

/-- Under the uniqueness invariant, the identity lookup finds exactly the
member row carrying that identity key. -/
theorem find_ident_of_mem (rows : List Row)
    (hu : pairwiseB (fun a b => !(identClash a b)) rows = true)
    (r : Row) (hr : r ∈ rows) :
    rows.find? (fun x => x.fileName == r.fileName &&
      x.sizeBytes == r.sizeBytes) = some r := by
  induction rows with
  | nil => cases hr
  | cons a t ih =>
    simp only [pairwiseB, Bool.and_eq_true, List.all_eq_true] at hu
    obtain ⟨hall, ht⟩ := hu
    rcases List.mem_cons.mp hr with rfl | hrt
    · simp [List.find?_cons]
    · by_cases hpa : (a.fileName == r.fileName &&
        a.sizeBytes == r.sizeBytes) = true
      · exfalso
        have hcl := hall r hrt
        simp only [Bool.not_eq_true'] at hcl
        rw [identClash] at hcl
        rw [hpa] at hcl
        cases hcl
      · rw [List.find?_cons_of_neg _ (by simp [hpa])]
        exact ih ht hrt

/-- Claim C2: the classification of a scan descriptor f against a catalog
satisfying the uniqueness invariant, under a chosen storage id: with no
identity match, a bare name match gives NameMatchSizeMismatch and no name
match at all gives NewFile; with an identity match on a different storage id
the class is DuplicateElsewhere, and on the same storage id it is Moved or
InSync according to (normcased) path inequality or equality.  Every
descriptor falls into exactly one of the five classes (classifyFile is a
total function into the five-constructor FileClass, and the disjunction
below lists all of them). -/
theorem classify_cases_c2 (db : Catalog) (sid : String) (f : Desc)
    (hu : uniqueIdent db = true) :
    ((¬ ∃ r ∈ db.rows, r.fileName = f.nameWithoutExt ∧
        r.sizeBytes = f.size) →
      ((∃ r ∈ db.rows, r.fileName = f.nameWithoutExt) →
        classifyFile db sid f = .nameMatchSizeMismatch) ∧
      ((¬ ∃ r ∈ db.rows, r.fileName = f.nameWithoutExt) →
        classifyFile db sid f = .newFile)) ∧
    (∀ r ∈ db.rows, r.fileName = f.nameWithoutExt → r.sizeBytes = f.size →
      (r.storageId ≠ sid →
        classifyFile db sid f = .duplicateElsewhere r.id) ∧
      (r.storageId = sid →
        (normcase r.fullPath ≠ normcase f.fullPath →
          classifyFile db sid f = .moved r.id) ∧
        (normcase r.fullPath = normcase f.fullPath →
          classifyFile db sid f = .inSync))) ∧
    (classifyFile db sid f = .newFile ∨
     classifyFile db sid f = .nameMatchSizeMismatch ∨
     classifyFile db sid f = .inSync ∨
     (∃ i, classifyFile db sid f = .moved i) ∨
     (∃ i, classifyFile db sid f = .duplicateElsewhere i)) ∧
    (∃! c, classifyFile db sid f = c) := by
  refine ⟨?_, ?_, ?_, ?_⟩
  · intro hnone
    have hfind : findByIdentity db f.nameWithoutExt f.size = none := by
      unfold findByIdentity
      rw [List.find?_eq_none]
      intro x hx
      simp only [Bool.and_eq_true, beq_iff_eq, not_and]
      intro h1 h2
      exact hnone ⟨x, hx, h1, h2⟩
    constructor
    · intro ⟨r, hr, hname⟩
      unfold classifyFile
      rw [hfind]
      have : existsName db f.nameWithoutExt = true := by
        unfold existsName
        rw [List.any_eq_true]
        exact ⟨r, hr, by simp [hname]⟩
      rw [this]
      simp
    · intro hnn
      unfold classifyFile
      rw [hfind]
      have : existsName db f.nameWithoutExt = false := by
        unfold existsName
        rw [List.any_eq_false]
        intro x hx
        simp only [beq_iff_eq]
        intro h1
        exact hnn ⟨x, hx, h1⟩
      rw [this]
      simp
  · intro r hr hname hsize
    have hfind : findByIdentity db f.nameWithoutExt f.size = some r := by
      unfold findByIdentity
      rw [← hname, ← hsize]
      exact find_ident_of_mem db.rows hu r hr
    constructor
    · intro hne
      simp only [classifyFile, hfind]
      rw [if_neg (by simpa using hne)]
    · intro heq
      constructor
      · intro hpne
        simp only [classifyFile, hfind]
        rw [if_pos (by simpa using heq)]
        rw [if_neg (by simpa using hpne)]
      · intro hpeq
        simp only [classifyFile, hfind]
        rw [if_pos (by simpa using heq)]
        rw [if_pos (by simpa using hpeq)]
  · rcases h : classifyFile db sid f with _ | _ | i | _ | i
    · exact Or.inl rfl
    · exact Or.inr (Or.inl rfl)
    · exact Or.inr (Or.inr (Or.inr (Or.inl ⟨i, rfl⟩)))
    · exact Or.inr (Or.inr (Or.inl rfl))
    · exact Or.inr (Or.inr (Or.inr (Or.inr ⟨i, rfl⟩)))
  · exact ⟨classifyFile db sid f, rfl, fun y hy => hy.symm⟩

/-- Claim C2 witness: on the concrete one-row catalog, scanning the same
identity under storage B classifies the descriptor as DuplicateElsewhere of
the existing row. -/
theorem classify_cases_c2_witness :
    classifyFile dbClip "B" descOffender = .duplicateElsewhere rowClip.id :=
  ((classify_cases_c2 dbClip "B" descOffender (by decide)).2.1 rowClip
    (by decide) rfl rfl).1 (by decide)

/-- Pointwise-equal Boolean predicates agree on List.all. -/
theorem allCong {α : Type} (l : List α) (f g : α → Bool)
    (h : ∀ x, f x = g x) : l.all f = l.all g := by
  induction l with
  | nil => rfl
  | cons a t ih => simp [List.all_cons, h a, ih]

/-- Mapping a function that the pairwise predicate cannot observe leaves
pairwiseB unchanged. -/
theorem pairwiseB_map (p : Row → Row → Bool) (g : Row → Row)
    (hg : ∀ a b, p (g a) (g b) = p a b) (l : List Row) :
    pairwiseB p (l.map g) = pairwiseB p l := by
  induction l with
  | nil => rfl
  | cons a t ih =>
    simp only [List.map_cons, pairwiseB, List.all_map]
    rw [ih, allCong t (p (g a) ∘ g) (p a) (fun x => hg a x)]

/-- pairwiseB survives filtering (deletions). -/
theorem pairwiseB_filter (p : Row → Row → Bool) (q : Row → Bool)
    (l : List Row) (h : pairwiseB p l = true) :
    pairwiseB p (l.filter q) = true := by
  induction l with
  | nil => rfl
  | cons a t ih =>
    simp only [pairwiseB, Bool.and_eq_true, List.all_eq_true] at h
    obtain ⟨hall, ht⟩ := h
    by_cases hq : q a = true
    · rw [List.filter_cons_of_pos hq]
      simp only [pairwiseB, Bool.and_eq_true, List.all_eq_true]
      exact ⟨fun x hx => hall x (List.mem_of_mem_filter hx), ih ht⟩
    · rw [List.filter_cons_of_neg (by simpa using hq)]
      exact ih ht

/-- Appending one element compatible with every list member preserves
pairwiseB. -/
theorem pairwiseB_append_single (p : Row → Row → Bool) (l : List Row)
    (x : Row) (h : pairwiseB p l = true) (hx : ∀ a ∈ l, p a x = true) :
    pairwiseB p (l ++ [x]) = true := by
  induction l with
  | nil => simp [pairwiseB]
  | cons a t ih =>
    simp only [pairwiseB, Bool.and_eq_true, List.all_eq_true] at h
    obtain ⟨hall, ht⟩ := h
    simp only [List.cons_append, pairwiseB, Bool.and_eq_true,
      List.all_eq_true]
    refine ⟨?_, ih ht (fun b hb => hx b (List.mem_cons_of_mem a hb))⟩
    intro b hb
    rcases List.mem_append.mp hb with hbt | hbx
    · exact hall b hbt
    · rw [List.mem_singleton.mp hbx]
      exact hx a (List.mem_cons_self a t)

/-- A row map preserving the identity fields cannot change whether two rows
clash. -/
theorem noClash_of_pres (g : Row → Row)
    (hf : ∀ r, (g r).fileName = r.fileName)
    (hs : ∀ r, (g r).sizeBytes = r.sizeBytes) (a b : Row) :
    (!(identClash (g a) (g b))) = (!(identClash a b)) := by
  unfold identClash
  rw [hf a, hf b, hs a, hs b]

/-- The storage-id reassignment loop leaves every identity-blind pairwise
predicate unchanged. -/
theorem storageScan_pairwise (p : Row → Row → Bool)
    (hp : ∀ (g : Row → Row), (∀ r, (g r).fileName = r.fileName) →
      (∀ r, (g r).sizeBytes = r.sizeBytes) →
      ∀ a b, p (g a) (g b) = p a b)
    (sid : String) :
    ∀ (scan : List Desc) (acc : Catalog × Nat),
      pairwiseB p (List.foldl (storageScanStep sid) acc scan).1.rows =
        pairwiseB p acc.1.rows := by
  intro scan
  induction scan with
  | nil => intro acc; rfl
  | cons f rest ih =>
    intro acc
    rw [List.foldl_cons, ih]
    unfold storageScanStep
    by_cases ht : f.tracked = true
    · simp only [ht, if_true]
      exact pairwiseB_map p (storageScanF sid f)
        (hp (storageScanF sid f)
          (fun r => by unfold storageScanF; split <;> rfl)
          (fun r => by unfold storageScanF; split <;> rfl)) acc.1.rows
    · simp [ht]

/-- Every single write the program issues preserves identity uniqueness. -/
theorem applyOp_unique (db : Catalog) (op : DbOp)
    (hu : uniqueIdent db = true) : uniqueIdent (applyOp db op) = true := by
  cases op with
  | ins nr now =>
    simp only [applyOp, insertRow]
    by_cases hc : (db.rows.any fun r => r.fileName == nr.fileName &&
        r.sizeBytes == nr.sizeBytes) = true
    · rw [if_pos hc]
      exact hu
    · rw [if_neg hc]
      show uniqueIdent (insertAppend db nr now) = true
      unfold uniqueIdent insertAppend
      unfold uniqueIdent at hu
      apply pairwiseB_append_single _ _ _ hu
      intro a ha
      have hcf : (db.rows.any fun r => r.fileName == nr.fileName &&
          r.sizeBytes == nr.sizeBytes) = false := Bool.eq_false_iff.mpr hc
      have hna := List.any_eq_false.mp hcf a ha
      simp only [Bool.not_eq_true']
      simp only [identClash, mkRow]
      exact Bool.eq_false_iff.mpr (by simpa using hna)
  | updMoved rid sid path cdate =>
    simp only [applyOp]
    unfold updateMoved uniqueIdent
    unfold uniqueIdent at hu
    rw [pairwiseB_map _ _ (noClash_of_pres _
      (fun r => by unfold movedF; split <;> rfl)
      (fun r => by unfold movedF; split <;> rfl))]
    exact hu
  | updStorageScan sid scan =>
    simp only [applyOp]
    unfold updateStorageFromScan
    by_cases hsid : (sid == "UNKNOWN") = true
    · rw [if_pos hsid]
      exact hu
    · rw [if_neg hsid]
      unfold uniqueIdent at hu ⊢
      rw [storageScan_pairwise _
        (fun g h1 h2 a b => noClash_of_pres g h1 h2 a b) sid scan (db, 0)]
      exact hu
  | updYear rid y =>
    simp only [applyOp]
    unfold updateYear uniqueIdent
    unfold uniqueIdent at hu
    rw [pairwiseB_map _ _ (noClash_of_pres _
      (fun r => by unfold yearF; split <;> rfl)
      (fun r => by unfold yearF; split <;> rfl))]
    exact hu
  | updCategory rid c =>
    simp only [applyOp]
    unfold updateCategory uniqueIdent
    unfold uniqueIdent at hu
    rw [pairwiseB_map _ _ (noClash_of_pres _
      (fun r => by unfold categoryF; split <;> rfl)
      (fun r => by unfold categoryF; split <;> rfl))]
    exact hu
  | updPath rid pth =>
    simp only [applyOp]
    unfold updatePath uniqueIdent
    unfold uniqueIdent at hu
    rw [pairwiseB_map _ _ (noClash_of_pres _
      (fun r => by unfold pathF; split <;> rfl)
      (fun r => by unfold pathF; split <;> rfl))]
    exact hu
  | delOne rid =>
    simp only [applyOp]
    unfold deleteRow uniqueIdent
    unfold uniqueIdent at hu
    exact pairwiseB_filter _ _ _ hu
  | delAll =>
    rfl

/-- Claim C6: identity uniqueness is an invariant of the catalog preserved
by every operation: starting from any catalog without duplicate (fileName,
sizeBytes) pairs, after any sequence of the program's inserts, updates and
deletes no two rows share the identity key; and an insert that would violate
the invariant fails with the constraint violation instead of creating a
second row. -/
theorem catalog_unique_invariant_c6 (db : Catalog)
    (hu : uniqueIdent db = true) :
    (∀ ops : List DbOp, uniqueIdent (applyOps db ops) = true) ∧
    (∀ (nr : NewRow) (now : String),
      (∃ r ∈ db.rows, r.fileName = nr.fileName ∧
        r.sizeBytes = nr.sizeBytes) →
      insertRow db nr now = .error ()) := by
  constructor
  · intro ops
    induction ops generalizing db with
    | nil => exact hu
    | cons op rest ih =>
      exact ih (applyOp db op) (applyOp_unique db op hu)
  · intro nr now ⟨r, hr, h1, h2⟩
    unfold insertRow
    rw [if_pos]
    rw [List.any_eq_true]
    exact ⟨r, hr, by simp [h1, h2]⟩

/-- Claim C6 witness: a concrete session (insert, moved update, delete) on
the concrete catalog keeps identities unique, and re-inserting `rowClip`'s
identity fails with the constraint violation. -/
theorem catalog_unique_invariant_c6_witness :
    uniqueIdent (applyOps dbClip
      [DbOp.ins ⟨"fresh", ".mkv", 200, "A", "2020-02-02 00:00:00",
        "/b/fresh.mkv", some 2020, none⟩ "2022-01-01 00:00:00",
       DbOp.updMoved 1 "B" "/new/clip.mp4" "2020-05-05 00:00:00",
       DbOp.delOne 2]) = true ∧
    insertRow dbClip
      ⟨"clip", ".avi", 1000, "B", "2020-06-06 00:00:00", "/y/clip.avi",
        none, none⟩ "2022-03-03 00:00:00" = .error () :=
  ⟨(catalog_unique_invariant_c6 dbClip (by decide)).1
    [DbOp.ins ⟨"fresh", ".mkv", 200, "A", "2020-02-02 00:00:00",
      "/b/fresh.mkv", some 2020, none⟩ "2022-01-01 00:00:00",
     DbOp.updMoved 1 "B" "/new/clip.mp4" "2020-05-05 00:00:00",
     DbOp.delOne 2],
   (catalog_unique_invariant_c6 dbClip (by decide)).2
    ⟨"clip", ".avi", 1000, "B", "2020-06-06 00:00:00", "/y/clip.avi",
      none, none⟩ "2022-03-03 00:00:00" ⟨rowClip, by decide, rfl, rfl⟩⟩

/-- A successful find? on a prefix survives appending a suffix. -/
theorem find?_append_some {α : Type} (l1 l2 : List α) (p : α → Bool)
    (a : α) (h : l1.find? p = some a) : (l1 ++ l2).find? p = some a := by
  induction l1 with
  | nil => simp [List.find?] at h
  | cons x t ih =>
    by_cases hx : p x = true
    · rw [List.find?_cons_of_pos _ hx] at h
      rw [List.cons_append, List.find?_cons_of_pos _ hx]
      exact h
    · rw [List.find?_cons_of_neg _ hx] at h
      rw [List.cons_append, List.find?_cons_of_neg _ hx]
      exact ih h

/-- When the prefix has no match, find? on the appended list continues in
the suffix. -/
theorem find?_append_none {α : Type} (l1 l2 : List α) (p : α → Bool)
    (h : l1.find? p = none) : (l1 ++ l2).find? p = l2.find? p := by
  induction l1 with
  | nil => rfl
  | cons x t ih =>
    by_cases hx : p x = true
    · rw [List.find?_cons_of_pos _ hx] at h
      cases h
    · rw [List.find?_cons_of_neg _ hx] at h
      rw [List.cons_append, List.find?_cons_of_neg _ hx]
      exact ih h

/-- find? commutes with mapping a row function the predicate cannot
observe. -/
theorem find?_map_pres (l : List Row) (g : Row → Row) (p : Row → Bool)
    (hpg : ∀ r, p (g r) = p r) :
    (l.map g).find? p = (l.find? p).map g := by
  induction l with
  | nil => rfl
  | cons x t ih =>
    by_cases hx : p x = true
    · rw [List.map_cons, List.find?_cons_of_pos _ (by rw [hpg]; exact hx),
        List.find?_cons_of_pos _ hx]
      rfl
    · rw [List.map_cons, List.find?_cons_of_neg _ (by rw [hpg]; exact hx),
        List.find?_cons_of_neg _ hx]
      exact ih

/-- With pairwise distinct ids, two different member rows have different
ids. -/
theorem ids_distinct (l : List Row)
    (h : pairwiseB (fun a b => a.id != b.id) l = true)
    (a b : Row) (ha : a ∈ l) (hb : b ∈ l) (hne : a ≠ b) : a.id ≠ b.id := by
  induction l with
  | nil => cases ha
  | cons x t ih =>
    simp only [pairwiseB, Bool.and_eq_true, List.all_eq_true] at h
    obtain ⟨hall, ht⟩ := h
    rcases List.mem_cons.mp ha with rfl | hat
    · rcases List.mem_cons.mp hb with rfl | hbt
      · exact absurd rfl hne
      · have := hall b hbt
        simpa using this
    · rcases List.mem_cons.mp hb with rfl | hbt
      · have := hall a hat
        intro hid
        rw [hid] at this
        simp at this
      · exact ih ht hat hbt

/-- Unpack wfIds into its two Boolean conjuncts. -/
theorem wfIds_parts (db : Catalog) (h : wfIds db = true) :
    pairwiseB (fun a b => a.id != b.id) db.rows = true ∧
    (db.rows.all (fun r => r.id < db.nextId)) = true := by
  unfold wfIds at h
  simp only [Bool.and_eq_true] at h
  exact h

/-- The moved UPDATE never changes a row's id. -/
theorem movedF_id (rid : Nat) (sid path cdate : String) (r : Row) :
    (movedF rid sid path cdate r).id = r.id := by
  unfold movedF
  split <;> rfl

/-- Inserting the freshly numbered row keeps ids well-formed. -/
theorem wfIds_insertAppend (db : Catalog) (nr : NewRow) (now : String)
    (h : wfIds db = true) : wfIds (insertAppend db nr now) = true := by
  obtain ⟨hpw, hlt⟩ := wfIds_parts db h
  unfold wfIds insertAppend
  rw [Bool.and_eq_true]
  constructor
  · apply pairwiseB_append_single _ _ _ hpw
    intro a ha
    have := List.all_eq_true.mp hlt a ha
    simp only [bne_iff_ne, ne_eq, mkRow]
    simp only [decide_eq_true_eq] at this
    omega
  · rw [List.all_eq_true]
    intro r hr
    rcases List.mem_append.mp hr with h1 | h2
    · have := List.all_eq_true.mp hlt r h1
      simp only [decide_eq_true_eq] at this ⊢
      omega
    · rw [List.mem_singleton.mp h2]
      simp [mkRow]

/-- The moved UPDATE keeps ids well-formed. -/
theorem wfIds_updateMoved (db : Catalog) (rid : Nat)
    (sid path cdate : String) (h : wfIds db = true) :
    wfIds (updateMoved db rid sid path cdate) = true := by
  obtain ⟨hpw, hlt⟩ := wfIds_parts db h
  unfold wfIds updateMoved
  rw [Bool.and_eq_true]
  constructor
  · rw [pairwiseB_map _ _ (fun a b => by
      rw [movedF_id, movedF_id])]
    exact hpw
  · rw [List.all_map, allCong _ _ (fun r => decide (r.id < db.nextId))
      (fun r => by simp [movedF_id])]
    exact hlt

/-- Every iteration of the export loop keeps ids well-formed. -/
theorem exportStep_wf (sid now : String) (acc : ExportResult) (g : Desc)
    (h : wfIds acc.db = true) : wfIds (exportStep sid now acc g).db = true := by
  unfold exportStep
  by_cases hext : allowedVideoExts.contains (lowerStr g.extension) = true
  · rw [if_pos hext]
    rcases hf : findByIdentity acc.db g.nameWithoutExt g.size with _ | r
    · exact wfIds_insertAppend acc.db _ now h
    · dsimp only
      by_cases hsid : (r.storageId == sid) = true
      · rw [if_pos hsid]
        by_cases hp : (r.fullPath == g.fullPath) = true
        · rw [if_pos hp]
          exact h
        · rw [if_neg hp]
          exact wfIds_updateMoved acc.db r.id sid g.fullPath _ h
      · rw [if_neg hsid]
        exact h
  · rw [if_neg hext]
    exact h



/-- When an export iteration for an allowed descriptor adds no duplicate
waste, it leaves the descriptor applied: its identity row carries the chosen
storage id and exactly the scanned path. -/
theorem exportStep_good (sid now : String) (acc : ExportResult) (g : Desc)
    (hext : allowedVideoExts.contains (lowerStr g.extension) = true)
    (hw : (exportStep sid now acc g).wasteCount = acc.wasteCount) :
    goodFor sid (exportStep sid now acc g).db g := by
  unfold exportStep at hw ⊢
  rw [if_pos hext] at hw ⊢
  rcases hf : findByIdentity acc.db g.nameWithoutExt g.size with _ | r
  · dsimp only
    refine ⟨mkRow acc.db.nextId (newRowOfDesc g sid) now, ?_, rfl, rfl⟩
    unfold findByIdentity at hf
    unfold findByIdentity insertAppend
    rw [find?_append_none _ _ _ hf]
    simp [mkRow, newRowOfDesc, List.find?]
  · rw [hf] at hw
    dsimp only at hw ⊢
    by_cases hsid : (r.storageId == sid) = true
    · rw [if_pos hsid] at hw ⊢
      by_cases hp : (r.fullPath == g.fullPath) = true
      · rw [if_pos hp] at hw ⊢
        exact ⟨r, hf, by simpa using hsid, by simpa using hp⟩
      · rw [if_neg hp] at hw ⊢
        dsimp only
        refine ⟨movedF r.id sid g.fullPath (formatDate g.creationDate) r,
          ?_, ?_, ?_⟩
        · unfold updateMoved findByIdentity
          unfold findByIdentity at hf
          rw [find?_map_pres _ _ _ (fun x => by unfold movedF; split <;> rfl),
            hf]
          rfl
        · simp [movedF]
        · simp [movedF]
    · rw [if_neg hsid] at hw
      dsimp only at hw
      omega

/-- An export iteration for a descriptor with a different identity key
leaves an already-applied descriptor applied. -/
theorem exportStep_preserve (sid now : String) (acc : ExportResult)
    (g f0 : Desc) (hwf : wfIds acc.db = true)
    (hne : ¬(g.nameWithoutExt = f0.nameWithoutExt ∧ g.size = f0.size))
    (hg : goodFor sid acc.db f0) :
    goodFor sid (exportStep sid now acc g).db f0 := by
  unfold exportStep
  by_cases hext : allowedVideoExts.contains (lowerStr g.extension) = true
  · rw [if_pos hext]
    rcases hf : findByIdentity acc.db g.nameWithoutExt g.size with _ | r
    · dsimp only
      obtain ⟨r0, hr0, hs0, hp0⟩ := hg
      refine ⟨r0, ?_, hs0, hp0⟩
      unfold findByIdentity insertAppend
      unfold findByIdentity at hr0
      exact find?_append_some _ _ _ _ hr0
    · dsimp only
      by_cases hsid : (r.storageId == sid) = true
      · rw [if_pos hsid]
        by_cases hp : (r.fullPath == g.fullPath) = true
        · rw [if_pos hp]
          exact hg
        · rw [if_neg hp]
          dsimp only
          obtain ⟨r0, hr0, hs0, hp0⟩ := hg
          unfold findByIdentity at hr0 hf
          have hr0mem := List.mem_of_find?_eq_some hr0
          have hrmem := List.mem_of_find?_eq_some hf
          have hr0p := List.find?_some hr0
          have hrp := List.find?_some hf
          simp only [Bool.and_eq_true, beq_iff_eq] at hr0p hrp
          have hner : r0 ≠ r := by
            intro he
            rw [he] at hr0p
            exact hne ⟨hrp.1 ▸ hr0p.1.symm ▸ rfl, hrp.2 ▸ hr0p.2.symm ▸ rfl⟩
          have hid : r0.id ≠ r.id :=
            ids_distinct acc.db.rows (wfIds_parts acc.db hwf).1 r0 r
              hr0mem hrmem hner
          refine ⟨r0, ?_, hs0, hp0⟩
          unfold updateMoved findByIdentity
          rw [find?_map_pres _ _ _ (fun x => by unfold movedF; split <;> rfl),
            hr0]
          show some (movedF r.id sid g.fullPath (formatDate g.creationDate)
            r0) = some r0
          unfold movedF
          rw [if_neg (by simpa using hid)]
      · rw [if_neg hsid]
        exact hg
  · rw [if_neg hext]
    exact hg

/-- An export iteration over an already-applied descriptor changes
nothing. -/
theorem exportStep_noop (sid now : String) (acc : ExportResult) (f : Desc)
    (hext : allowedVideoExts.contains (lowerStr f.extension) = true)
    (hg : goodFor sid acc.db f) : exportStep sid now acc f = acc := by
  obtain ⟨r, hr, hs, hp⟩ := hg
  unfold exportStep
  rw [if_pos hext, hr]
  dsimp only
  rw [if_pos (by simp [hs]), if_pos (by simp [hp])]

/-- The duplicate-waste counter never decreases within one iteration. -/
theorem exportStep_waste_ge (sid now : String) (acc : ExportResult)
    (f : Desc) :
    acc.wasteCount ≤ (exportStep sid now acc f).wasteCount := by
  unfold exportStep
  by_cases hext : allowedVideoExts.contains (lowerStr f.extension) = true
  · rw [if_pos hext]
    rcases hf : findByIdentity acc.db f.nameWithoutExt f.size with _ | r
    · exact Nat.le_refl _
    · dsimp only
      by_cases hsid : (r.storageId == sid) = true
      · rw [if_pos hsid]
        by_cases hp : (r.fullPath == f.fullPath) = true
        · rw [if_pos hp]
        · rw [if_neg hp]
      · rw [if_neg hsid]
        dsimp only
        omega
  · rw [if_neg hext]

/-- The duplicate-waste counter never decreases across the export loop. -/
theorem exportFold_waste_ge (sid now : String) :
    ∀ (scan : List Desc) (acc : ExportResult),
      acc.wasteCount ≤
        (List.foldl (exportStep sid now) acc scan).wasteCount := by
  intro scan
  induction scan with
  | nil => intro acc; exact Nat.le_refl _
  | cons g rest ih =>
    intro acc
    rw [List.foldl_cons]
    exact Nat.le_trans (exportStep_waste_ge sid now acc g)
      (ih (exportStep sid now acc g))



/-- The rest of the export loop, running over descriptors with other
identity keys, preserves an applied descriptor. -/
theorem export_fold_preserve (sid now : String) (f0 : Desc) :
    ∀ (scan : List Desc) (acc : ExportResult),
      wfIds acc.db = true →
      (∀ g ∈ scan, ¬(g.nameWithoutExt = f0.nameWithoutExt ∧
        g.size = f0.size)) →
      goodFor sid acc.db f0 →
      goodFor sid (List.foldl (exportStep sid now) acc scan).db f0 := by
  intro scan
  induction scan with
  | nil => intro acc _ _ hg; simpa using hg
  | cons g rest ih =>
    intro acc hwf hne hg
    rw [List.foldl_cons]
    exact ih (exportStep sid now acc g) (exportStep_wf sid now acc g hwf)
      (fun x hx => hne x (List.mem_cons_of_mem g hx))
      (exportStep_preserve sid now acc g f0 hwf
        (hne g (List.mem_cons_self g rest)) hg)

/-- After an export run over identity-distinct, allowed descriptors that
detects no duplicate waste, every scanned descriptor is applied. -/
theorem export_fold_good (sid now : String) :
    ∀ (scan : List Desc) (acc : ExportResult),
      wfIds acc.db = true →
      scanDistinct scan = true →
      (∀ f ∈ scan, allowedVideoExts.contains (lowerStr f.extension) = true) →
      (List.foldl (exportStep sid now) acc scan).wasteCount =
        acc.wasteCount →
      ∀ f ∈ scan, goodFor sid
        (List.foldl (exportStep sid now) acc scan).db f := by
  intro scan
  induction scan with
  | nil => intro acc _ _ _ _ f hf; cases hf
  | cons g rest ih =>
    intro acc hwf hdist hext hw f hf
    rw [List.foldl_cons] at hw ⊢
    have h1 := exportStep_waste_ge sid now acc g
    have h2 := exportFold_waste_ge sid now rest (exportStep sid now acc g)
    have hstep_w : (exportStep sid now acc g).wasteCount =
        acc.wasteCount := by omega
    have hrest_w : (List.foldl (exportStep sid now)
        (exportStep sid now acc g) rest).wasteCount =
        (exportStep sid now acc g).wasteCount := by omega
    unfold scanDistinct at hdist
    rw [Bool.and_eq_true] at hdist
    obtain ⟨hdg, hdrest⟩ := hdist
    rcases List.mem_cons.mp hf with rfl | hft
    · apply export_fold_preserve sid now f rest (exportStep sid now acc f)
        (exportStep_wf sid now acc f hwf)
      · intro x hx
        have := List.all_eq_true.mp hdg x hx
        simp only [Bool.not_eq_true', Bool.and_eq_false_iff, beq_eq_false_iff_ne,
          ne_eq] at this
        intro hcon
        rcases this with h | h
        · exact h hcon.1
        · exact h hcon.2
      · exact exportStep_good sid now acc f
          (hext f (List.mem_cons_self f rest)) hstep_w
    · exact ih (exportStep sid now acc g)
        (exportStep_wf sid now acc g hwf) hdrest
        (fun x hx => hext x (List.mem_cons_of_mem g hx)) hrest_w f hft

/-- An export run over descriptors that are all already applied is the
identity on the accumulator. -/
theorem export_fold_noop (sid now : String) :
    ∀ (scan : List Desc) (acc : ExportResult),
      (∀ f ∈ scan, allowedVideoExts.contains (lowerStr f.extension) = true) →
      (∀ f ∈ scan, goodFor sid acc.db f) →
      List.foldl (exportStep sid now) acc scan = acc := by
  intro scan
  induction scan with
  | nil => intro acc _ _; rfl
  | cons g rest ih =>
    intro acc hext hg
    rw [List.foldl_cons,
      exportStep_noop sid now acc g (hext g (List.mem_cons_self g rest))
        (hg g (List.mem_cons_self g rest))]
    exact ih acc (fun x hx => hext x (List.mem_cons_of_mem g hx))
      (fun x hx => hg x (List.mem_cons_of_mem g hx))

/-- Claim C3 (amended): reconciliation-and-apply (export_to_sqlite) is
idempotent provided the scan contains no two descriptors sharing an
identity key and the first run detects no cross-storage duplicate waste:
starting from any catalog with well-formed ids, after the first run every
descriptor of the same unchanged scan classifies InSync, and re-running the
export performs zero inserts and zero updates, leaving the catalog
unchanged.  (Without the two added hypotheses the property is false: see the
counterexample.) -/
theorem export_rescan_idempotent_c3 (db : Catalog) (sid : String)
    (scan : List Desc) (now now2 : String)
    (hwf : wfIds db = true)
    (hdist : scanDistinct scan = true)
    (hext : ∀ f ∈ scan,
      allowedVideoExts.contains (lowerStr f.extension) = true)
    (hw : (exportScan db sid scan now).wasteCount = 0) :
    (∀ f ∈ scan,
      classifyFile (exportScan db sid scan now).db sid f = .inSync) ∧
    exportScan (exportScan db sid scan now).db sid scan now2 =
      ⟨(exportScan db sid scan now).db, 0, 0, 0⟩ := by
  have hgood : ∀ f ∈ scan,
      goodFor sid (exportScan db sid scan now).db f := by
    apply export_fold_good sid now scan ⟨db, 0, 0, 0⟩ hwf hdist hext
    exact hw
  constructor
  · intro f hf
    obtain ⟨r, hr, hs, hp⟩ := hgood f hf
    simp only [classifyFile, hr]
    rw [if_pos (by simp [hs]), if_pos (by simp [hp])]
  · exact export_fold_noop sid now2 scan
      ⟨(exportScan db sid scan now).db, 0, 0, 0⟩ hext hgood

/-- Claim C3 witness: a concrete two-descriptor scan applied to the empty
catalog re-classifies as all-InSync, and the re-run is a no-op. -/
theorem export_rescan_idempotent_c3_witness :
    (∀ f ∈ [descMovedClip, descFresh],
      classifyFile (exportScan dbEmpty "A" [descMovedClip, descFresh]
        "t1").db "A" f = .inSync) ∧
    exportScan (exportScan dbEmpty "A" [descMovedClip, descFresh] "t1").db
      "A" [descMovedClip, descFresh] "t2" =
      ⟨(exportScan dbEmpty "A" [descMovedClip, descFresh] "t1").db,
        0, 0, 0⟩ :=
  export_rescan_idempotent_c3 dbEmpty "A" [descMovedClip, descFresh]
    "t1" "t2" (by decide) (by decide) (by decide) (by decide)

/-- Claim C3 counterexample to the claim as stated: the same disk holding
two paths with one identity key (true duplicates on one disk) makes
reconcile-and-apply flip-flop the stored path: after a first
reconcile-and-apply of the scan, re-running the very same scan performs two
updates (not zero) and the first descriptor classifies Moved, not
InSync. -/
theorem export_rescan_not_idempotent_c3_cx :
    (exportScan (exportScan dbEmpty "A" [descPair1, descPair2] "t1").db
      "A" [descPair1, descPair2] "t2").movedCount = 2 ∧
    classifyFile (exportScan dbEmpty "A" [descPair1, descPair2] "t1").db
      "A" descPair1 = .moved 1 := by
  constructor
  · decide
  · decide

end VideoLister
